import Mathlib

/-!
Shallow embedding of the 6502 CPU core (`src/cpu/`): the CPU state, the
status-flag register operations (embedding the `bitflags` helpers), the
memory and stack interfaces, the addressing-mode resolver, and the
instruction semantic routines, together with theorems settling the
specification claims.

Machine integers are embedded as `Nat` with explicit `% 256` / `% 65536`
where the Rust `u8` / `u16` types wrap.  Fallible operations (Rust panics:
out-of-bounds indexing, the `NonAddressing` resolver arm) return `Option`.
-/

namespace Nes

/-! ## Status flag masks (`CpuFlags` bitflags in `src/cpu/mod.rs`) -/

def CARRY : Nat := 0b00000001
def ZERO : Nat := 0b00000010
def INTERRUPT_DISABLE : Nat := 0b00000100
def DECIMAL_MODE : Nat := 0b00001000
def BREAK : Nat := 0b00010000
def BREAK2 : Nat := 0b00100000
def OVERFLOW : Nat := 0b01000000
def NEGATIVE : Nat := 0b10000000

/-- `bitflags` `contains`: `self.bits & other.bits == other.bits`. -/
def flagContains (st mask : Nat) : Bool := st &&& mask == mask

/-- `bitflags` `insert`: `self.bits |= other.bits`. -/
def flagInsert (st mask : Nat) : Nat := st ||| mask

/-- `bitflags` `remove`: `self.bits &= !other.bits` (8-bit complement). -/
def flagRemove (st mask : Nat) : Nat := st &&& (255 ^^^ mask)

/-- `bitflags` `set(flag, value)`. -/
def flagSet (st mask : Nat) (b : Bool) : Nat :=
  if b then flagInsert st mask else flagRemove st mask

/-! ## CPU state (`pub struct CPU` in `src/cpu/mod.rs`)

The memory array `memory: [u8; 0xFFFF]` is embedded in two ways:

* for the address-space bounds analysis, `MemArray` below models the array
  exactly, with its source length `0xFFFF` and `Option`-valued indexing
  (a Rust out-of-bounds index panics);
* for the instruction-level claims the byte store is abstracted as a total
  function `Nat → Nat` (addresses used by those claims stay below the
  array bound), with byte-range side conditions carried as hypotheses. -/

structure CPUState where
  register_a : Nat
  register_x : Nat
  register_y : Nat
  status : Nat
  stack_pointer : Nat
  program_counter : Nat
  memory : Nat → Nat

/-- `STACK_RESET: u8 = 0xff`. -/
def STACK_RESET : Nat := 0xff

/-- `STACK: u16 = 0x0100`. -/
def STACK : Nat := 0x0100

inductive AddressingMode where
  | immediate
  | zeroPage
  | zeroPageX
  | zeroPageY
  | absolute
  | absoluteX
  | absoluteY
  | indirectX
  | indirectY
  | nonAddressing

/-! ## The exact memory array model (for the address-space bounds claim)

`src/cpu/mod.rs` line 54: `memory: [u8; 0xFFFF]` — an array of `0xFFFF`
(= 65535) bytes.  `src/cpu/memory.rs` indexes it with `addr as usize`. -/

/-- The length of the CPU memory array: `[u8; 0xFFFF]`. -/
def MEMORY_LEN : Nat := 0xFFFF

/-- The freshly constructed memory, `[0; 0xFFFF]` (`CPU::new`). -/
def newMemory : List Nat := List.replicate MEMORY_LEN 0

/-- `self.memory[addr as usize]` — Rust array indexing; an out-of-bounds
index panics, modelled as `none`. -/
def memReadChecked (mem : List Nat) (addr : Nat) : Option Nat :=
  mem.get? addr

/-- `self.memory[addr as usize] = data` — panics (`none`) out of bounds. -/
def memWriteChecked (mem : List Nat) (addr data : Nat) : Option (List Nat) :=
  if addr < mem.length then some (mem.set addr data) else none

/-! ## The abstract memory interface (`impl Memory for CPU`) -/

/-- `mem_read`: `self.memory[addr as usize]`. -/
def memRead (s : CPUState) (addr : Nat) : Nat := s.memory addr

/-- `mem_write`. -/
def memWrite (s : CPUState) (addr data : Nat) : CPUState :=
  { s with memory := fun a => if a = addr then data else s.memory a }

/-- `mem_read_u16`: little-endian, `lo = read(pos)`, `hi = read(pos + 1)`
(the `pos + 1` is 16-bit arithmetic). -/
def memRead_u16 (s : CPUState) (pos : Nat) : Nat :=
  memRead s pos + 256 * memRead s ((pos + 1) % 65536)

/-- `mem_write_u16`: `to_le_bytes`, low byte at `pos`, high at `pos + 1`. -/
def memWrite_u16 (s : CPUState) (pos data : Nat) : CPUState :=
  memWrite (memWrite s pos (data % 256)) ((pos + 1) % 65536) (data / 256 % 256)

/-! ## Stack (`impl Stack for CPU` in `src/cpu/stack.rs`) -/

/-- `stack_push`: write at `STACK + SP`, then `SP = SP.wrapping_sub(1)`. -/
def stackPush (s : CPUState) (data : Nat) : CPUState :=
  let s1 := memWrite s (STACK + s.stack_pointer) data
  { s1 with stack_pointer := (s1.stack_pointer + 255) % 256 }

/-- `stack_pop`: `SP = SP.wrapping_add(1)`, then read at `STACK + SP`.
Returns the state together with the popped byte. -/
def stackPop (s : CPUState) : CPUState × Nat :=
  let sp := (s.stack_pointer + 1) % 256
  ({ s with stack_pointer := sp }, memRead s (STACK + sp))

/-- `stack_push_u16`: push the high byte, then the low byte. -/
def stackPush_u16 (s : CPUState) (data : Nat) : CPUState :=
  stackPush (stackPush s (data / 256 % 256)) (data % 256)

/-- `stack_pop_u16`: pop low, pop high, combine little-endian. -/
def stackPop_u16 (s : CPUState) : CPUState × Nat :=
  let r1 := stackPop s
  let r2 := stackPop r1.1
  (r2.1, r1.2 + 256 * r2.2)

/-! ## Core functions (`src/cpu/core_functions.rs`) -/

/-- `update_negative_flags`: set N iff `param >> 7 == 1`. -/
def updateNegativeFlags (s : CPUState) (param : Nat) : CPUState :=
  if param >>> 7 = 1 then { s with status := flagInsert s.status NEGATIVE }
  else { s with status := flagRemove s.status NEGATIVE }

/-- `update_zero_and_negative_flags`: set Z iff `param == 0`, then update N. -/
def updateZeroAndNegativeFlags (s : CPUState) (param : Nat) : CPUState :=
  let s1 := if param = 0 then { s with status := flagInsert s.status ZERO }
            else { s with status := flagRemove s.status ZERO }
  updateNegativeFlags s1 param

/-- `set_register_a`: write A, then update Z and N from it. -/
def setRegisterA (s : CPUState) (value : Nat) : CPUState :=
  updateZeroAndNegativeFlags { s with register_a := value } value

/-- `set_register_x`. -/
def setRegisterX (s : CPUState) (value : Nat) : CPUState :=
  updateZeroAndNegativeFlags { s with register_x := value } value

/-- `set_register_y`. -/
def setRegisterY (s : CPUState) (value : Nat) : CPUState :=
  updateZeroAndNegativeFlags { s with register_y := value } value

/-- `add_to_register_a`: `sum = A + value + C` (in `u16`, so exact here);
carry from `sum > 0xFF`; `result = sum as u8`; overflow from
`(value ^ result) & (A ^ result) & 0x80 != 0` (with the pre-update A);
finally `set_register_a(result)`. -/
def addToRegisterA (s : CPUState) (value : Nat) : CPUState :=
  let sum := s.register_a + value +
    (if flagContains s.status CARRY then 1 else 0)
  let st1 := if sum > 0b11111111 then flagInsert s.status CARRY
             else flagRemove s.status CARRY
  let result := sum % 256
  let st2 := if (value ^^^ result) &&& (s.register_a ^^^ result) &&& NEGATIVE ≠ 0
             then flagInsert st1 OVERFLOW else flagRemove st1 OVERFLOW
  setRegisterA { s with status := st2 } result

/-- `get_operand_address`: the addressing-mode resolver.  The
`NonAddressing` arm panics in the source, modelled as `none`. -/
def getOperandAddress (s : CPUState) (mode : AddressingMode) : Option Nat :=
  match mode with
  | .immediate => some s.program_counter
  | .zeroPage => some (memRead s s.program_counter)
  | .zeroPageX =>
      some ((memRead s s.program_counter + s.register_x) % 256)
  | .zeroPageY =>
      some ((memRead s s.program_counter + s.register_y) % 256)
  | .absolute => some (memRead_u16 s s.program_counter)
  | .absoluteX =>
      some ((memRead_u16 s s.program_counter + s.register_x) % 65536)
  | .absoluteY =>
      some ((memRead_u16 s s.program_counter + s.register_y) % 65536)
  | .indirectX =>
      let ptr := (memRead s s.program_counter + s.register_x) % 256
      let lo := memRead s ptr
      let hi := memRead s ((ptr + 1) % 256)
      some (lo + 256 * hi)
  | .indirectY =>
      let base := memRead s s.program_counter
      let lo := memRead s base
      let hi := memRead s ((base + 1) % 256)
      some ((lo + 256 * hi + s.register_y) % 65536)
  | .nonAddressing => none

/-! ## Opcode methods (`src/cpu/opcode_methods.rs`)

A memory-operand routine first resolves the operand address (`Option`
because `NonAddressing` panics) and then applies its body. -/

/-- `adc`: fetch the operand byte and `add_to_register_a` it. -/
def adc (s : CPUState) (mode : AddressingMode) : Option CPUState :=
  (getOperandAddress s mode).map fun addr => addToRegisterA s (memRead s addr)

/-- `(mem as i8).wrapping_neg().wrapping_sub(1) as u8` — the operand
transformation applied by `subtract_with_carry`.  On the bit level the
`i8` reinterpretations are the identity, so this is 8-bit `-mem` then
8-bit `- 1`. -/
def sbcOperand (mem : Nat) : Nat :=
  ((256 - mem % 256) % 256 + 255) % 256

/-- `subtract_with_carry`: fetch the operand byte, transform it, and
delegate to `add_to_register_a`. -/
def subtractWithCarry (s : CPUState) (mode : AddressingMode) : Option CPUState :=
  (getOperandAddress s mode).map fun addr =>
    addToRegisterA s (sbcOperand (memRead s addr))

/-- `and`. -/
def andA (s : CPUState) (mode : AddressingMode) : Option CPUState :=
  (getOperandAddress s mode).map fun addr =>
    setRegisterA s (memRead s addr &&& s.register_a)

/-- `logical_inclusive_or` (ORA). -/
def logicalInclusiveOr (s : CPUState) (mode : AddressingMode) : Option CPUState :=
  (getOperandAddress s mode).map fun addr =>
    setRegisterA s (s.register_a ||| memRead s addr)

/-- `exclusive_or` (EOR). -/
def exclusiveOr (s : CPUState) (mode : AddressingMode) : Option CPUState :=
  (getOperandAddress s mode).map fun addr =>
    setRegisterA s (memRead s addr ^^^ s.register_a)

/-- `load_a_register` (LDA). -/
def loadARegister (s : CPUState) (mode : AddressingMode) : Option CPUState :=
  (getOperandAddress s mode).map fun addr => setRegisterA s (memRead s addr)

/-- `load_x_register` (LDX). -/
def loadXRegister (s : CPUState) (mode : AddressingMode) : Option CPUState :=
  (getOperandAddress s mode).map fun addr => setRegisterX s (memRead s addr)

/-- `load_y_register` (LDY). -/
def loadYRegister (s : CPUState) (mode : AddressingMode) : Option CPUState :=
  (getOperandAddress s mode).map fun addr => setRegisterY s (memRead s addr)

/-- `transfer_accumulator_x` (TAX). -/
def transferAccumulatorX (s : CPUState) : CPUState :=
  updateZeroAndNegativeFlags { s with register_x := s.register_a } s.register_a

/-- `transfer_accumulator_y` (TAY). -/
def transferAccumulatorY (s : CPUState) : CPUState :=
  updateZeroAndNegativeFlags { s with register_y := s.register_a } s.register_a

/-- `transfer_x_accumulator` (TXA). -/
def transferXAccumulator (s : CPUState) : CPUState :=
  updateZeroAndNegativeFlags { s with register_a := s.register_x } s.register_x

/-- `transfer_y_accumulator` (TYA). -/
def transferYAccumulator (s : CPUState) : CPUState :=
  updateZeroAndNegativeFlags { s with register_a := s.register_y } s.register_y

/-- `transfer_stack_pointer_to_x` (TSX). -/
def transferStackPointerToX (s : CPUState) : CPUState :=
  updateZeroAndNegativeFlags { s with register_x := s.stack_pointer } s.stack_pointer

/-- `increment_register_x` (INX): 8-bit wrapping add. -/
def incrementRegisterX (s : CPUState) : CPUState :=
  updateZeroAndNegativeFlags { s with register_x := (s.register_x + 1) % 256 }
    ((s.register_x + 1) % 256)

/-- `increment_register_y` (INY). -/
def incrementRegisterY (s : CPUState) : CPUState :=
  updateZeroAndNegativeFlags { s with register_y := (s.register_y + 1) % 256 }
    ((s.register_y + 1) % 256)

/-- `decrement_register_x` (DEX): 8-bit wrapping sub. -/
def decrementRegisterX (s : CPUState) : CPUState :=
  updateZeroAndNegativeFlags { s with register_x := (s.register_x + 255) % 256 }
    ((s.register_x + 255) % 256)

/-- `decrement_register_y` (DEY). -/
def decrementRegisterY (s : CPUState) : CPUState :=
  updateZeroAndNegativeFlags { s with register_y := (s.register_y + 255) % 256 }
    ((s.register_y + 255) % 256)

/-- `pull_accumulator` (PLA): pop a byte, `set_register_a` it. -/
def pullAccumulator (s : CPUState) : CPUState :=
  let r := stackPop s
  setRegisterA r.1 r.2

/-- `set_carry_flag`. -/
def setCarryFlag (s : CPUState) : CPUState :=
  { s with status := flagInsert s.status CARRY }

/-- `clear_carry_flag`. -/
def clearCarryFlag (s : CPUState) : CPUState :=
  { s with status := flagRemove s.status CARRY }

/-- `rotate_left_accumulator` (ROL A): carry from old bit 7; shift left
(`u8`, wrapping); bit 0 filled from the old carry; `set_register_a`. -/
def rotateLeftAccumulator (s : CPUState) : CPUState :=
  let data := s.register_a
  let current_carry := flagContains s.status CARRY
  let s1 := if data >>> 7 = 1 then setCarryFlag s else clearCarryFlag s
  let data1 := (data <<< 1) % 256
  let data2 := if current_carry then data1 ||| CARRY else data1 &&& 0b11111110
  setRegisterA s1 data2

/-- `rotate_left` (ROL memory): as the accumulator variant, but the result
is written back to the operand address and only the N flag is updated
(`update_negative_flags`, not the zero-and-negative pair). -/
def rotateLeft (s : CPUState) (mode : AddressingMode) : Option CPUState :=
  (getOperandAddress s mode).map fun addr =>
    let mem := memRead s addr
    let current_carry := flagContains s.status CARRY
    let s1 := if mem >>> 7 = 1 then setCarryFlag s else clearCarryFlag s
    let mem1 := (mem <<< 1) % 256
    let mem2 := if current_carry then mem1 ||| CARRY else mem1 &&& 0b11111110
    memWrite (updateNegativeFlags s1 mem2) addr mem2

/-- `rotate_right_accumulator` (ROR A): carry from old bit 0; shift right;
bit 7 filled from the old carry; `set_register_a`. -/
def rotateRightAccumulator (s : CPUState) : CPUState :=
  let data := s.register_a
  let current_carry := flagContains s.status CARRY
  let s1 := if data &&& CARRY = 1 then setCarryFlag s else clearCarryFlag s
  let data1 := data >>> 1
  let data2 := if current_carry then data1 ||| NEGATIVE else data1 &&& 0b01111111
  setRegisterA s1 data2

/-- `rotate_right` (ROR memory): write-back variant; only N is updated. -/
def rotateRight (s : CPUState) (mode : AddressingMode) : Option CPUState :=
  (getOperandAddress s mode).map fun addr =>
    let mem := memRead s addr
    let current_carry := flagContains s.status CARRY
    let s1 := if mem &&& CARRY = 1 then setCarryFlag s else clearCarryFlag s
    let mem1 := mem >>> 1
    let mem2 := if current_carry then mem1 ||| NEGATIVE else mem1 &&& 0b01111111
    memWrite (updateNegativeFlags s1 mem2) addr mem2

/-- `(relative_disp as i8) as u16`: sign extension of a byte to 16 bits. -/
def i8AsU16 (d : Nat) : Nat := if d < 128 then d else 0xFF00 + d

/-- `branch(condition)`: when the condition holds, read the signed 8-bit
displacement at PC and set `PC = PC.wrapping_add(1).wrapping_add(disp)`. -/
def branch (s : CPUState) (condition : Bool) : CPUState :=
  if condition then
    let relative_disp := memRead s s.program_counter
    { s with program_counter :=
        (s.program_counter + 1 + i8AsU16 relative_disp) % 65536 }
  else s

/-- The eight conditional branch opcodes of the dispatch `match`. -/
inductive BranchKind where
  | bcc | bcs | beq | bne | bpl | bmi | bvc | bvs

/-- The condition each dispatch arm passes to `branch` (from the
`run_with_callback` `match` in `src/cpu/mod.rs`). -/
def branchCond (st : Nat) : BranchKind → Bool
  | .bcc => !(flagContains st CARRY)
  | .bcs => flagContains st CARRY
  | .beq => flagContains st ZERO
  | .bne => !(flagContains st ZERO)
  | .bpl => !(flagContains st NEGATIVE)
  | .bmi => flagContains st NEGATIVE
  | .bvc => !(flagContains st OVERFLOW)
  | .bvs => flagContains st OVERFLOW

/-- Modelled from the spec: the opcode metadata table is an external
collaborator (not under `src/`); per §6 every relative-mode branch opcode
has `length_in_bytes = 2`. -/
def branchLen : Nat := 2

/-- One iteration of `run_with_callback` specialised to a branch opcode:
`PC += 1` past the opcode, save PC, run `branch`, and if PC is unchanged
advance it by `length - 1`. -/
def branchStep (s : CPUState) (k : BranchKind) : CPUState :=
  let s0 := { s with program_counter := (s.program_counter + 1) % 65536 }
  let program_counter_state := s0.program_counter
  let s1 := branch s0 (branchCond s0.status k)
  if s1.program_counter = program_counter_state then
    { s1 with program_counter := (s1.program_counter + (branchLen - 1)) % 65536 }
  else s1

/-- `jump_indirect` (JMP indirect): fetch `addr = read16(PC)`; when the
low byte of `addr` is `0xFF` read the high byte from `addr & 0xFF00`
instead of `addr + 1` (the 6502 page-boundary bug); else `read16(addr)`. -/
def jumpIndirect (s : CPUState) : CPUState :=
  let addr := memRead_u16 s s.program_counter
  let addr_at_addr :=
    if addr &&& 0b11111111 = 0b11111111 then
      let lo := memRead s addr
      let hi := memRead s (addr &&& 0xFF00)
      lo + 256 * hi
    else memRead_u16 s addr
  { s with program_counter := addr_at_addr }

/-- `reset`: zero A, X, Y; `SP = STACK_RESET`; status raw `0b00100100`
(`from_bits_truncate` keeps every bit, all eight are defined); reload PC
from the reset vector at `0xFFFC`.  Memory is untouched. -/
def reset (s : CPUState) : CPUState :=
  { s with
    register_a := 0
    register_x := 0
    register_y := 0
    stack_pointer := STACK_RESET
    status := 0b00100100
    program_counter := memRead_u16 s 0xFFFC }

/-- Specification-side SBC semantics, following the spec's words: SBC is
"semantically `A - M - (1 - C)`", here as a two's-complement byte
(integer arithmetic mod 256), to be compared with the implementation's
delegation to `add_to_register_a`. -/
def sbcSpecA (a m c : Nat) : Int := ((a : Int) - m - (1 - c)) % 256

/-- The C, I, D, B, U and V status bits agree between two states: the
frame left intact by operations that only update Z and N. -/
def znFramePreserved (s t : CPUState) : Prop :=
  flagContains t.status CARRY = flagContains s.status CARRY ∧
  flagContains t.status INTERRUPT_DISABLE =
    flagContains s.status INTERRUPT_DISABLE ∧
  flagContains t.status DECIMAL_MODE = flagContains s.status DECIMAL_MODE ∧
  flagContains t.status BREAK = flagContains s.status BREAK ∧
  flagContains t.status BREAK2 = flagContains s.status BREAK2 ∧
  flagContains t.status OVERFLOW = flagContains s.status OVERFLOW

/-! ## Status-register bit lemmas

The flag register is a byte; single flags are powers of two.  These lemmas
track one bit through `insert` / `remove` chains. -/

theorem flagContains_two_pow (st i : Nat) :
    flagContains st (2 ^ i) = st.testBit i := by
  unfold flagContains
  rw [Nat.and_two_pow]
  cases h : st.testBit i <;>
    simp [h, (Nat.two_pow_pos i).ne, (Nat.two_pow_pos i).ne']

theorem flagContains_flagInsert_self (st i : Nat) :
    flagContains (flagInsert st (2 ^ i)) (2 ^ i) = true := by
  rw [flagContains_two_pow]
  simp [flagInsert]

theorem flagContains_flagRemove_self (st i : Nat) (hi : i < 8) :
    flagContains (flagRemove st (2 ^ i)) (2 ^ i) = false := by
  rw [flagContains_two_pow]
  unfold flagRemove
  rw [Nat.testBit_and, Nat.testBit_xor,
    show (255 : Nat) = 2 ^ 8 - 1 by norm_num, Nat.testBit_two_pow_sub_one,
    Nat.testBit_two_pow_self]
  simp [hi]

theorem flagContains_flagInsert_other (st i j : Nat) (hne : i ≠ j) :
    flagContains (flagInsert st (2 ^ i)) (2 ^ j) = flagContains st (2 ^ j) := by
  rw [flagContains_two_pow, flagContains_two_pow]
  unfold flagInsert
  rw [Nat.testBit_or, Nat.testBit_two_pow_of_ne hne]
  simp

theorem flagContains_flagRemove_other (st i j : Nat) (hj : j < 8) (hne : i ≠ j) :
    flagContains (flagRemove st (2 ^ i)) (2 ^ j) = flagContains st (2 ^ j) := by
  rw [flagContains_two_pow, flagContains_two_pow]
  unfold flagRemove
  rw [Nat.testBit_and, Nat.testBit_xor,
    show (255 : Nat) = 2 ^ 8 - 1 by norm_num, Nat.testBit_two_pow_sub_one,
    Nat.testBit_two_pow_of_ne hne]
  simp [hj]

theorem updZN_status (s : CPUState) (p : Nat) :
    (updateZeroAndNegativeFlags s p).status =
      (if p >>> 7 = 1
       then flagInsert
         (if p = 0 then flagInsert s.status ZERO else flagRemove s.status ZERO)
         NEGATIVE
       else flagRemove
         (if p = 0 then flagInsert s.status ZERO else flagRemove s.status ZERO)
         NEGATIVE) := by
  unfold updateZeroAndNegativeFlags updateNegativeFlags
  split_ifs <;> rfl

theorem updZN_zero (s : CPUState) (p : Nat) :
    flagContains (updateZeroAndNegativeFlags s p).status ZERO = decide (p = 0) := by
  rw [updZN_status]
  simp only [show NEGATIVE = 2 ^ 7 from rfl, show ZERO = 2 ^ 1 from rfl]
  split_ifs with hn hz hz <;>
    first
    | rw [flagContains_flagInsert_other _ 7 1 (by decide),
        flagContains_flagInsert_self]
      simp [hz]
    | rw [flagContains_flagInsert_other _ 7 1 (by decide),
        flagContains_flagRemove_self _ _ (by decide)]
      simp [hz]
    | rw [flagContains_flagRemove_other _ 7 1 (by decide) (by decide),
        flagContains_flagInsert_self]
      simp [hz]
    | rw [flagContains_flagRemove_other _ 7 1 (by decide) (by decide),
        flagContains_flagRemove_self _ _ (by decide)]
      simp [hz]

theorem updZN_neg (s : CPUState) (p : Nat) :
    flagContains (updateZeroAndNegativeFlags s p).status NEGATIVE =
      decide (p >>> 7 = 1) := by
  rw [updZN_status]
  simp only [show NEGATIVE = 2 ^ 7 from rfl]
  split_ifs with hn <;>
    first
    | rw [flagContains_flagInsert_self]; simp [hn]
    | rw [flagContains_flagRemove_self _ _ (by decide)]; simp [hn]

theorem updZN_other (s : CPUState) (p j : Nat) (hj : j < 8)
    (h1 : j ≠ 1) (h7 : j ≠ 7) :
    flagContains (updateZeroAndNegativeFlags s p).status (2 ^ j) =
      flagContains s.status (2 ^ j) := by
  rw [updZN_status]
  simp only [show NEGATIVE = 2 ^ 7 from rfl, show ZERO = 2 ^ 1 from rfl]
  split_ifs <;>
    first
    | rw [flagContains_flagInsert_other _ 7 j (fun h => h7 h.symm),
        flagContains_flagInsert_other _ 1 j (fun h => h1 h.symm)]
    | rw [flagContains_flagInsert_other _ 7 j (fun h => h7 h.symm),
        flagContains_flagRemove_other _ 1 j hj (fun h => h1 h.symm)]
    | rw [flagContains_flagRemove_other _ 7 j hj (fun h => h7 h.symm),
        flagContains_flagInsert_other _ 1 j (fun h => h1 h.symm)]
    | rw [flagContains_flagRemove_other _ 7 j hj (fun h => h7 h.symm),
        flagContains_flagRemove_other _ 1 j hj (fun h => h1 h.symm)]

theorem updZN_register_a (s : CPUState) (p : Nat) :
    (updateZeroAndNegativeFlags s p).register_a = s.register_a := by
  unfold updateZeroAndNegativeFlags updateNegativeFlags
  split_ifs <;> rfl

theorem updNeg_status (s : CPUState) (p : Nat) :
    (updateNegativeFlags s p).status =
      if p >>> 7 = 1 then flagInsert s.status NEGATIVE
      else flagRemove s.status NEGATIVE := by
  unfold updateNegativeFlags
  split_ifs <;> rfl

theorem updNeg_neg (s : CPUState) (p : Nat) :
    flagContains (updateNegativeFlags s p).status NEGATIVE =
      decide (p >>> 7 = 1) := by
  rw [updNeg_status]
  simp only [show NEGATIVE = 2 ^ 7 from rfl]
  split_ifs with hn <;>
    first
    | rw [flagContains_flagInsert_self]; simp [hn]
    | rw [flagContains_flagRemove_self _ _ (by decide)]; simp [hn]

theorem updNeg_other (s : CPUState) (p j : Nat) (hj : j < 8) (h7 : j ≠ 7) :
    flagContains (updateNegativeFlags s p).status (2 ^ j) =
      flagContains s.status (2 ^ j) := by
  rw [updNeg_status]
  simp only [show NEGATIVE = 2 ^ 7 from rfl]
  split_ifs <;>
    first
    | rw [flagContains_flagInsert_other _ 7 j (fun h => h7 h.symm)]
    | rw [flagContains_flagRemove_other _ 7 j hj (fun h => h7 h.symm)]

theorem shiftRight7_decide (p : Nat) (hp : p < 256) :
    decide (p >>> 7 = 1) = decide (128 ≤ p) := by
  apply decide_eq_decide.mpr
  rw [Nat.shiftRight_eq_div_pow]
  norm_num
  omega

theorem or_lt_256 (x y : Nat) (hx : x < 256) (hy : y < 256) : x ||| y < 256 := by
  have h := Nat.or_lt_two_pow (n := 8) hx hy
  simpa using h

theorem addToRegisterA_register_a (s : CPUState) (v : Nat) :
    (addToRegisterA s v).register_a =
      (s.register_a + v +
        (if flagContains s.status CARRY then 1 else 0)) % 256 := by
  simp only [addToRegisterA, setRegisterA]
  rw [updZN_register_a]

theorem memRead_memWrite_self (s : CPUState) (a d : Nat) :
    memRead (memWrite s a d) a = d := by
  simp [memRead, memWrite]

/-- `update_zero_and_negative_flags` (and the register setters built on
it) touch only the Z and N bits of the status byte. -/
theorem znFramePreserved_updZN (s t : CPUState) (p : Nat)
    (hst : t.status = s.status) :
    znFramePreserved s (updateZeroAndNegativeFlags t p) := by
  unfold znFramePreserved
  simp only [show CARRY = 2 ^ 0 from rfl,
    show INTERRUPT_DISABLE = 2 ^ 2 from rfl,
    show DECIMAL_MODE = 2 ^ 3 from rfl, show BREAK = 2 ^ 4 from rfl,
    show BREAK2 = 2 ^ 5 from rfl, show OVERFLOW = 2 ^ 6 from rfl]
  refine ⟨?_, ?_, ?_, ?_, ?_, ?_⟩ <;>
    rw [updZN_other _ _ _ (by decide) (by decide) (by decide), hst]

theorem and128_ne_zero (x : Nat) : (x &&& 128 ≠ 0) ↔ x.testBit 7 = true := by
  rw [show (128 : Nat) = 2 ^ 7 by norm_num, Nat.and_two_pow]
  cases h : x.testBit 7 <;> simp [h]

theorem testBit7_iff (x : Nat) : x.testBit 7 = decide (128 ≤ x % 256) := by
  rw [Nat.testBit_to_div_mod]
  apply decide_eq_decide.mpr
  omega

/-- The 6502 signed-overflow law: the source's bit formula holds exactly
when the addends share a sign that differs from the result's sign. -/
theorem v_formula (a m r : Nat) (ha : a < 256) (hm : m < 256) (hr : r < 256) :
    ((m ^^^ r) &&& (a ^^^ r) &&& 128 ≠ 0) ↔
      ((128 ≤ m ↔ 128 ≤ a) ∧ ¬(128 ≤ r ↔ 128 ≤ a)) := by
  rw [and128_ne_zero, Nat.testBit_and, Nat.testBit_xor, Nat.testBit_xor,
    testBit7_iff m, testBit7_iff r, testBit7_iff a,
    Nat.mod_eq_of_lt hm, Nat.mod_eq_of_lt hr, Nat.mod_eq_of_lt ha]
  by_cases h1 : 128 ≤ m <;> by_cases h2 : 128 ≤ a <;> by_cases h3 : 128 ≤ r <;>
    simp [h1, h2, h3]

/-! ## Theorems -/

theorem newMemory_length : newMemory.length = 65535 := by
  rw [newMemory, List.length_replicate, MEMORY_LEN]

/-- C1: the claim asserts every 16-bit address `0x0000..=0xFFFF` is an
in-range access of the CPU memory, the address space comprising exactly
65,536 bytes.  The source array `[u8; 0xFFFF]` holds only 65,535 bytes:
every address up to `0xFFFE` is in range, but `mem_read(0xFFFF)` and
`mem_write(0xFFFF, b)` index out of bounds (a Rust panic, here `none`). -/
theorem mem_access_bounds :
    newMemory.length = 65535 ∧
    (∀ a, a < 0xFFFF → (memReadChecked newMemory a).isSome = true) ∧
    memReadChecked newMemory 0xFFFF = none ∧
    memWriteChecked newMemory 0xFFFF 0 = none := by
  have hlen : newMemory.length = 65535 := newMemory_length
  refine ⟨hlen, ?_, ?_, ?_⟩
  · intro a ha
    have hl : a < newMemory.length := by omega
    simp only [memReadChecked]
    rw [List.get?_eq_get hl]
    rfl
  · simp only [memReadChecked]
    rw [List.get?_len_le (by omega)]
  · simp only [memWriteChecked]
    rw [if_neg (by omega)]

/-- C9: immediately after `reset`, A = X = Y = 0, SP = `0xFF`, the status
register is raw `0b00100100`, PC is the little-endian 16-bit word at
`0xFFFC`, and every byte of memory is unchanged. -/
theorem reset_spec (s : CPUState) :
    (reset s).register_a = 0 ∧
    (reset s).register_x = 0 ∧
    (reset s).register_y = 0 ∧
    (reset s).stack_pointer = 0xFF ∧
    (reset s).status = 0b00100100 ∧
    (reset s).program_counter = memRead s 0xFFFC + 256 * memRead s 0xFFFD ∧
    (∀ a, (reset s).memory a = s.memory a) := by
  refine ⟨rfl, rfl, rfl, rfl, rfl, ?_, fun a => rfl⟩
  show memRead_u16 s 0xFFFC = _
  rw [memRead_u16]

/-- C7: a byte push followed by a pop returns the pushed byte with SP
restored; a 16-bit push followed by a 16-bit pop returns the pushed word
with SP restored; `stack_push_u16` pushes the high byte then the low byte,
so the first subsequent pop yields the low byte. -/
theorem stack_roundtrip (s : CPUState) (b w : Nat)
    (hsp : s.stack_pointer < 256) (hb : b < 256) (hw : w < 65536) :
    (stackPop (stackPush s b)).2 = b ∧
    (stackPop (stackPush s b)).1.stack_pointer = s.stack_pointer ∧
    (stackPop_u16 (stackPush_u16 s w)).2 = w ∧
    (stackPop_u16 (stackPush_u16 s w)).1.stack_pointer = s.stack_pointer ∧
    stackPush_u16 s w = stackPush (stackPush s (w / 256 % 256)) (w % 256) ∧
    (stackPop (stackPush_u16 s w)).2 = w % 256 := by
  obtain ⟨a, x, y, st, sp, pc, mem⟩ := s
  have hsp' : sp < 256 := hsp
  refine ⟨?_, ?_, ?_, ?_, rfl, ?_⟩ <;>
    simp only [stackPush_u16, stackPop_u16, stackPush, stackPop, memWrite,
      memRead, STACK]
  · have h2 : ((sp + 255) % 256 + 1) % 256 = sp := by omega
    rw [h2]
    simp
  · have h2 : ((sp + 255) % 256 + 1) % 256 = sp := by omega
    rw [h2]
  · have h1 : (((sp + 255) % 256 + 255) % 256 + 1) % 256 = (sp + 255) % 256 := by
      omega
    have h2 : ((sp + 255) % 256 + 1) % 256 = sp := by omega
    rw [h1, h2]
    have h3 : (256 : Nat) + sp ≠ 256 + (sp + 255) % 256 := by omega
    simp [h3]
    omega
  · have h1 : (((sp + 255) % 256 + 255) % 256 + 1) % 256 = (sp + 255) % 256 := by
      omega
    have h2 : ((sp + 255) % 256 + 1) % 256 = sp := by omega
    rw [h1, h2]
  · have h1 : (((sp + 255) % 256 + 255) % 256 + 1) % 256 = (sp + 255) % 256 := by
      omega
    rw [h1]
    simp

theorem and255 (addr : Nat) : addr &&& 255 = addr % 256 := by
  simpa using Nat.and_pow_two_sub_one_eq_mod addr 8

theorem and_ff00 (addr : Nat) (h : addr < 65536) :
    addr &&& 0xFF00 = addr / 256 * 256 := by
  apply Nat.eq_of_testBit_eq
  intro i
  rw [Nat.testBit_and]
  have hrepr : addr / 256 * 256 = (addr >>> 8) <<< 8 := by
    rw [Nat.shiftLeft_eq, Nat.shiftRight_eq_div_pow]
  have hmask : (0xFF00 : Nat) = 255 <<< 8 := by decide
  rw [hrepr, hmask, Nat.testBit_shiftLeft, Nat.testBit_shiftLeft]
  rcases lt_or_ge i 8 with hi | hi
  · simp [Nat.not_le.mpr hi]
  · rcases lt_or_ge i 16 with hi2 | hi2
    · have h255 : Nat.testBit 255 (i - 8) = true := by
        rw [show (255 : Nat) = 2 ^ 8 - 1 by norm_num, Nat.testBit_two_pow_sub_one]
        simp; omega
      rw [Nat.testBit_shiftRight]
      have h8 : 8 + (i - 8) = i := by omega
      rw [h8, h255]
      simp [hi]
    · have hbig : addr.testBit i = false := by
        apply Nat.testBit_lt_two_pow
        calc addr < 65536 := h
        _ = 2 ^ 16 := by norm_num
        _ ≤ 2 ^ i := Nat.pow_le_pow_right (by norm_num) hi2
      rw [Nat.testBit_shiftRight, show 8 + (i - 8) = i by omega, hbig]
      simp

/-- C5: `jump_indirect` fetches `addr = read16(PC)`; when the low byte of
`addr` is `0xFF` it loads PC with low byte `read8(addr)` and high byte
`read8(addr & 0xFF00)` — which is the start of `addr`'s page
(`addr - 255`), never `addr + 1` — and otherwise PC = `read16(addr)`. -/
theorem jump_indirect_page_bug (s : CPUState) (addr : Nat)
    (ha : memRead_u16 s s.program_counter = addr) (hlt : addr < 65536) :
    (addr % 256 = 255 →
      (jumpIndirect s).program_counter =
        memRead s addr + 256 * memRead s (addr &&& 0xFF00) ∧
      addr &&& 0xFF00 = addr - 255 ∧
      addr &&& 0xFF00 ≠ (addr + 1) % 65536) ∧
    (addr % 256 ≠ 255 →
      (jumpIndirect s).program_counter = memRead_u16 s addr) := by
  constructor
  · intro h255
    have hand : addr &&& 255 = 255 := by rw [and255]; exact h255
    refine ⟨?_, ?_, ?_⟩
    · simp only [jumpIndirect, ha, hand]
      simp
    · rw [and_ff00 addr hlt]; omega
    · rw [and_ff00 addr hlt]; omega
  · intro hne
    have hand : ¬(addr &&& 255 = 255) := by rw [and255]; exact hne
    simp only [jumpIndirect, ha]
    rw [if_neg hand]

/-- Witness for C5: the spec's concrete instance.  The operand word is
`0x02FF`; the jump target's high byte is read from `0x0200` (holding
`0x12`), not from `0x0300` (holding `0x99`): the loaded PC is `0x1234`. -/
theorem jump_indirect_page_bug_witness :
    let s : CPUState :=
      { register_a := 0, register_x := 0, register_y := 0,
        status := 0b00100100, stack_pointer := 0xFF,
        program_counter := 0x0600,
        memory := fun a =>
          if a = 0x0600 then 0xFF else if a = 0x0601 then 0x02 else
          if a = 0x02FF then 0x34 else if a = 0x0200 then 0x12 else
          if a = 0x0300 then 0x99 else 0 }
    (jumpIndirect s).program_counter = 0x1234 := by
  intro s
  have ha : memRead_u16 s 0x0600 = 0x02FF := by decide
  have h := (jump_indirect_page_bug s 0x02FF ha (by decide)).1 (by decide)
  rw [h.1]
  decide

/-- C6: resolving `IndirectX` computes `p = (read8(PC) + X) mod 256` and
returns `read8(p) + 256 * read8((p + 1) mod 256)`; both pointer reads are
zero-page addresses.  In particular with X = 1 and operand byte `0xFF`
the pointer bytes come from addresses `0x0000` and `0x0001`. -/
theorem indirect_x_zero_page_wrap (s : CPUState)
    (hb : memRead s s.program_counter < 256) (hx : s.register_x < 256) :
    (getOperandAddress s .indirectX =
      some (memRead s ((memRead s s.program_counter + s.register_x) % 256) +
        256 * memRead s
          (((memRead s s.program_counter + s.register_x) % 256 + 1) % 256))) ∧
    ((memRead s s.program_counter + s.register_x) % 256 < 256) ∧
    (((memRead s s.program_counter + s.register_x) % 256 + 1) % 256 < 256) ∧
    (s.register_x = 1 → memRead s s.program_counter = 0xFF →
      getOperandAddress s .indirectX =
        some (memRead s 0 + 256 * memRead s 1)) := by
  refine ⟨rfl, by omega, by omega, ?_⟩
  intro h1 h2
  simp only [getOperandAddress, h1, h2]

/-- Witness for C6: X = 1, operand `0xFF`; the pointer is assembled from
`mem[0x00] = 0xCD` and `mem[0x01] = 0xAB`, while `mem[0x0100] = 0x77` is
ignored: the effective address is `0xABCD`. -/
theorem indirect_x_zero_page_wrap_witness :
    let s : CPUState :=
      { register_a := 0, register_x := 1, register_y := 0,
        status := 0b00100100, stack_pointer := 0xFF,
        program_counter := 0x0600,
        memory := fun a =>
          if a = 0x0600 then 0xFF else if a = 0 then 0xCD else
          if a = 1 then 0xAB else if a = 0x0100 then 0x77 else 0 }
    getOperandAddress s .indirectX = some 0xABCD ∧ s.memory 0x0100 = 0x77 := by
  intro s
  have h := (indirect_x_zero_page_wrap s (by decide) (by decide)).2.2.2
    rfl (by decide)
  rw [h]
  exact ⟨by decide, by decide⟩

/-- Witness for C7 at a concrete state. -/
theorem stack_roundtrip_witness :
    let s : CPUState :=
      { register_a := 0, register_x := 0, register_y := 0,
        status := 0b00100100, stack_pointer := 0xFF,
        program_counter := 0x0600, memory := fun _ => 0 }
    (stackPop (stackPush s 0xAB)).2 = 0xAB ∧
    (stackPop_u16 (stackPush_u16 s 0xBEEF)).2 = 0xBEEF := by
  intro s
  have h := stack_roundtrip s 0xAB 0xBEEF (by decide) (by decide) (by decide)
  exact ⟨h.1, h.2.2.1⟩

/-- C3: `ADC` (via `add_to_register_a`) computes `sum = A + M + C` exactly,
sets C iff `sum > 0xFF`, sets V iff
`((M ^ result) & (A ^ result) & 0x80) != 0` — equivalently, iff A and M
share a sign that differs from the result's sign — stores `sum mod 256`
in A, and sets Z and N from the new A. -/
theorem adc_effect (s : CPUState) (m c sum result : Nat)
    (ha : s.register_a < 256) (hm : m < 256)
    (hc : c = (if flagContains s.status CARRY then 1 else 0))
    (hsum : sum = s.register_a + m + c)
    (hres : result = sum % 256) :
    (addToRegisterA s m).register_a = result ∧
    flagContains (addToRegisterA s m).status CARRY = decide (sum > 0xFF) ∧
    flagContains (addToRegisterA s m).status OVERFLOW =
      decide ((m ^^^ result) &&& (s.register_a ^^^ result) &&& 0x80 ≠ 0) ∧
    flagContains (addToRegisterA s m).status OVERFLOW =
      decide ((128 ≤ m ↔ 128 ≤ s.register_a) ∧
        ¬(128 ≤ result ↔ 128 ≤ s.register_a)) ∧
    flagContains (addToRegisterA s m).status ZERO = decide (result = 0) ∧
    flagContains (addToRegisterA s m).status NEGATIVE = decide (128 ≤ result) := by
  subst hc
  subst hsum
  subst hres
  obtain ⟨a, x, y, st, sp, pc, mem⟩ := s
  have ha' : a < 256 := ha
  simp only [addToRegisterA, setRegisterA,
    show CARRY = 2 ^ 0 from rfl, show OVERFLOW = 2 ^ 6 from rfl]
  have hA : (updateZeroAndNegativeFlags
      { register_a := (a + m + (if flagContains st (2 ^ 0) then 1 else 0)) % 256,
        register_x := x, register_y := y,
        status := (if (m ^^^ (a + m + (if flagContains st (2 ^ 0) then 1 else 0)) % 256) &&&
            (a ^^^ (a + m + (if flagContains st (2 ^ 0) then 1 else 0)) % 256) &&& NEGATIVE ≠ 0
          then flagInsert (if a + m + (if flagContains st (2 ^ 0) then 1 else 0) > 255
            then flagInsert st (2 ^ 0) else flagRemove st (2 ^ 0)) (2 ^ 6)
          else flagRemove (if a + m + (if flagContains st (2 ^ 0) then 1 else 0) > 255
            then flagInsert st (2 ^ 0) else flagRemove st (2 ^ 0)) (2 ^ 6)),
        stack_pointer := sp, program_counter := pc, memory := mem }
      ((a + m + (if flagContains st (2 ^ 0) then 1 else 0)) % 256)).register_a =
      (a + m + (if flagContains st (2 ^ 0) then 1 else 0)) % 256 := by
    rw [updZN_register_a]
  have hflag : flagContains (updateZeroAndNegativeFlags
      { register_a := (a + m + (if flagContains st (2 ^ 0) then 1 else 0)) % 256,
        register_x := x, register_y := y,
        status := (if (m ^^^ (a + m + (if flagContains st (2 ^ 0) then 1 else 0)) % 256) &&&
            (a ^^^ (a + m + (if flagContains st (2 ^ 0) then 1 else 0)) % 256) &&& NEGATIVE ≠ 0
          then flagInsert (if a + m + (if flagContains st (2 ^ 0) then 1 else 0) > 255
            then flagInsert st (2 ^ 0) else flagRemove st (2 ^ 0)) (2 ^ 6)
          else flagRemove (if a + m + (if flagContains st (2 ^ 0) then 1 else 0) > 255
            then flagInsert st (2 ^ 0) else flagRemove st (2 ^ 0)) (2 ^ 6)),
        stack_pointer := sp, program_counter := pc, memory := mem }
      ((a + m + (if flagContains st (2 ^ 0) then 1 else 0)) % 256)).status (2 ^ 6) =
      decide ((m ^^^ (a + m + (if flagContains st (2 ^ 0) then 1 else 0)) % 256) &&&
        (a ^^^ (a + m + (if flagContains st (2 ^ 0) then 1 else 0)) % 256) &&& NEGATIVE ≠ 0) := by
    rw [updZN_other _ _ 6 (by decide) (by decide) (by decide)]
    split_ifs <;>
      first
      | rw [flagContains_flagInsert_self]
        try simp only [Nat.add_zero] at *
        simp [*]
      | rw [flagContains_flagRemove_self _ _ (by decide)]
        try simp only [Nat.add_zero] at *
        simp [*]
  refine ⟨hA, ?_, hflag, ?_, ?_, ?_⟩
  · rw [updZN_other _ _ 0 (by decide) (by decide) (by decide)]
    split_ifs <;>
      first
      | rw [flagContains_flagInsert_other _ 6 0 (by decide),
          flagContains_flagInsert_self]
        try simp only [Nat.add_zero] at *
        simp [*]
      | rw [flagContains_flagInsert_other _ 6 0 (by decide),
          flagContains_flagRemove_self _ _ (by decide)]
        try simp only [Nat.add_zero] at *
        simp [*]
      | rw [flagContains_flagRemove_other _ 6 0 (by decide) (by decide),
          flagContains_flagInsert_self]
        try simp only [Nat.add_zero] at *
        simp [*]
      | rw [flagContains_flagRemove_other _ 6 0 (by decide) (by decide),
          flagContains_flagRemove_self _ _ (by decide)]
        try simp only [Nat.add_zero] at *
        simp [*]
  · rw [hflag]
    apply decide_eq_decide.mpr
    exact v_formula a m _ ha' hm (Nat.mod_lt _ (by norm_num))
  · rw [updZN_zero]
  · rw [updZN_neg]
    apply decide_eq_decide.mpr
    rw [Nat.shiftRight_eq_div_pow]
    have hlt : (a + m + (if flagContains st (2 ^ 0) then 1 else 0)) % 256 < 256 :=
      Nat.mod_lt _ (by norm_num)
    norm_num
    omega

/-- Witness for C3: `0x50 + 0x50` with carry clear gives A = `0xA0`,
V set (positive + positive = negative), C clear, N set, Z clear. -/
theorem adc_effect_witness :
    let s : CPUState :=
      { register_a := 0x50, register_x := 0, register_y := 0,
        status := 0b00100100, stack_pointer := 0xFF,
        program_counter := 0x0600, memory := fun _ => 0 }
    (addToRegisterA s 0x50).register_a = 0xA0 ∧
    flagContains (addToRegisterA s 0x50).status OVERFLOW = true ∧
    flagContains (addToRegisterA s 0x50).status CARRY = false ∧
    flagContains (addToRegisterA s 0x50).status NEGATIVE = true ∧
    flagContains (addToRegisterA s 0x50).status ZERO = false := by
  intro s
  have h := adc_effect s 0x50 0 0xA0 0xA0 (by decide) (by decide) (by decide)
    (by decide) (by decide)
  refine ⟨h.1, ?_, ?_, ?_, ?_⟩
  · rw [h.2.2.1]; decide
  · rw [h.2.1]; decide
  · rw [h.2.2.2.2.2]; decide
  · rw [h.2.2.2.2.1]; decide

/-- C4: `subtract_with_carry` delegates to `add_to_register_a` with the
operand transformed as `((-M) as 8-bit) - 1`, which equals the bitwise
complement `255 - M`; both SBC and ADC resolve the same operand address on
the same state, so SBC's entire effect (A and the C, V, Z, N flags) is
ADC's effect at the complemented operand; and the resulting accumulator
realizes the spec semantics `A - M - (1 - C)` mod 256. -/
theorem sbc_delegates_to_adc (s : CPUState) (mode : AddressingMode)
    (addr m : Nat) (hres : getOperandAddress s mode = some addr)
    (hm : memRead s addr = m) (hmlt : m < 256) :
    subtractWithCarry s mode = some (addToRegisterA s (sbcOperand m)) ∧
    adc s mode = some (addToRegisterA s m) ∧
    sbcOperand m = 255 - m ∧
    ((addToRegisterA s (sbcOperand m)).register_a : Int) =
      sbcSpecA s.register_a m
        (if flagContains s.status CARRY then 1 else 0) := by
  have hop : sbcOperand m = 255 - m := by
    unfold sbcOperand
    omega
  refine ⟨?_, ?_, hop, ?_⟩
  · rw [subtractWithCarry, hres, Option.map_some', hm]
  · rw [adc, hres, Option.map_some', hm]
  · rw [addToRegisterA_register_a, hop, sbcSpecA]
    by_cases hcy : flagContains s.status CARRY <;> simp only [hcy] <;>
      push_cast [Nat.sub_le, show m ≤ 255 from by omega] <;>
      omega

/-- Witness for C4: A = `0x50`, M = `0x20`, carry set (no borrow):
SBC leaves A = `0x30`, matching `A - M - (1 - C)`. -/
theorem sbc_delegates_to_adc_witness :
    let s : CPUState :=
      { register_a := 0x50, register_x := 0, register_y := 0,
        status := 0b00100101, stack_pointer := 0xFF,
        program_counter := 0x0600,
        memory := fun a => if a = 0x0600 then 0x20 else 0 }
    subtractWithCarry s .immediate =
      some (addToRegisterA s (sbcOperand 0x20)) ∧
    sbcOperand 0x20 = 0xDF ∧
    ((addToRegisterA s (sbcOperand 0x20)).register_a : Int) =
      sbcSpecA 0x50 0x20 1 := by
  intro s
  have h := sbc_delegates_to_adc s .immediate 0x0600 0x20 (by decide)
    (by decide) (by decide)
  refine ⟨h.1, by decide, ?_⟩
  have h4 := h.2.2.2
  simpa [show flagContains 37 CARRY = true from by decide] using h4

/-- C2 counterexample: a taken branch whose displacement is `0xFF`
(signed −1) lands exactly on `saved_PC`, so the dispatcher's step 4 sees
`PC == saved_PC` and advances PC by `length - 1` anyway.  With BNE at
`0x0600` (Z clear) and displacement byte `0xFF` at `0x0601`, the observed
PC after the dispatch step is `0x0602`, not the claimed
`operand-address + 1 + signextend(disp) = 0x0601`. -/
theorem branch_dispatch_pc_counterexample :
    let s : CPUState :=
      { register_a := 0, register_x := 0, register_y := 0,
        status := 0b00100100, stack_pointer := 0xFF,
        program_counter := 0x0600,
        memory := fun a => if a = 0x0601 then 0xFF else 0 }
    branchCond s.status BranchKind.bne = true ∧
    (branchStep s BranchKind.bne).program_counter = 0x0602 ∧
    (0x0601 + 1 + i8AsU16 (memRead s 0x0601)) % 65536 = 0x0601 ∧
    (branchStep s BranchKind.bne).program_counter ≠
      (0x0601 + 1 + i8AsU16 (memRead s 0x0601)) % 65536 := by
  refine ⟨by decide, by decide, by decide, by decide⟩

/-- C2 (amended): for a branch opcode executed by the dispatch loop, when
the condition holds and the displacement is not `0xFF`, the PC observed
after the dispatch step is `operand-address + 1 + signextend(disp)` mod
2^16; when the condition holds and the displacement is `0xFF` (signed −1,
the one case whose target equals `saved_PC`), step 4 fires and the
observed PC is `operand-address + 1`; when the condition fails, PC
advances by the instruction length 2. -/
theorem branch_dispatch_pc (s : CPUState) (k : BranchKind)
    (hpc : s.program_counter < 65536)
    (hd : s.memory ((s.program_counter + 1) % 65536) < 256) :
    (branchCond s.status k = true →
      s.memory ((s.program_counter + 1) % 65536) ≠ 255 →
      (branchStep s k).program_counter =
        ((s.program_counter + 1) % 65536 + 1 +
          i8AsU16 (s.memory ((s.program_counter + 1) % 65536))) % 65536) ∧
    (branchCond s.status k = true →
      s.memory ((s.program_counter + 1) % 65536) = 255 →
      (branchStep s k).program_counter =
        ((s.program_counter + 1) % 65536 + 1) % 65536) ∧
    (branchCond s.status k = false →
      (branchStep s k).program_counter = (s.program_counter + 2) % 65536) := by
  obtain ⟨a, x, y, st, sp, pc, mem⟩ := s
  have hpc' : pc < 65536 := hpc
  have hd' : mem ((pc + 1) % 65536) < 256 := hd
  refine ⟨?_, ?_, ?_⟩
  · intro hcond hne
    have hcond' : branchCond st k = true := hcond
    have hne' : mem ((pc + 1) % 65536) ≠ 255 := hne
    simp only [branchStep, branch, memRead, branchLen, hcond', if_true]
    have hnoteq : ((pc + 1) % 65536 + 1 +
        i8AsU16 (mem ((pc + 1) % 65536))) % 65536 ≠ (pc + 1) % 65536 := by
      unfold i8AsU16
      split_ifs <;> omega
    rw [if_neg hnoteq]
  · intro hcond h255
    have hcond' : branchCond st k = true := hcond
    have h255' : mem ((pc + 1) % 65536) = 255 := h255
    simp only [branchStep, branch, memRead, branchLen, hcond', if_true, h255']
    have heq : ((pc + 1) % 65536 + 1 + i8AsU16 255) % 65536 =
        (pc + 1) % 65536 := by
      unfold i8AsU16
      norm_num
      omega
    rw [heq, if_pos rfl]
  · intro hcond
    have hcond' : branchCond st k = false := hcond
    simp only [branchStep, branch, memRead, branchLen, hcond', if_false,
      Bool.false_eq_true]
    simp only [if_true, reduceIte]
    omega

/-- Witness for C2 (amended): BEQ at `0x0600` with Z set and displacement
`0x10` branches to `0x0612`; with Z clear the same instruction falls
through to `0x0602`. -/
theorem branch_dispatch_pc_witness :
    let s : CPUState :=
      { register_a := 0, register_x := 0, register_y := 0,
        status := 0b00100110, stack_pointer := 0xFF,
        program_counter := 0x0600,
        memory := fun a => if a = 0x0601 then 0x10 else 0 }
    (branchStep s BranchKind.beq).program_counter = 0x0612 ∧
    (branchStep s BranchKind.bne).program_counter = 0x0602 := by
  intro s
  constructor
  · have h := (branch_dispatch_pc s BranchKind.beq (by decide) (by decide)).1
      (by decide) (by decide)
    rw [h]
    decide
  · have h := (branch_dispatch_pc s BranchKind.bne (by decide)
      (by decide)).2.2 (by decide)
    rw [h]
    decide

theorem memWrite_status (s : CPUState) (a d : Nat) :
    (memWrite s a d).status = s.status := rfl

/-- C8: the memory-operand variants of ROL and ROR set the carry flag from
the shifted-out bit, write the rotated byte to the effective address, and
update N from the result while leaving Z unchanged; the accumulator
variants update both Z and N from the result (via the register setter). -/
theorem rol_ror_flag_asymmetry (s : CPUState) (mode : AddressingMode)
    (addr m rolv rorv rolav rorav : Nat) (srol sror : CPUState)
    (hres : getOperandAddress s mode = some addr)
    (hm : memRead s addr = m) (hmlt : m < 256) (ha : s.register_a < 256)
    (hrol : rotateLeft s mode = some srol)
    (hror : rotateRight s mode = some sror)
    (hrolv : rolv = if flagContains s.status CARRY
      then ((m <<< 1) % 256) ||| CARRY else ((m <<< 1) % 256) &&& 0b11111110)
    (hrorv : rorv = if flagContains s.status CARRY
      then (m >>> 1) ||| NEGATIVE else (m >>> 1) &&& 0b01111111)
    (hrolav : rolav = if flagContains s.status CARRY
      then ((s.register_a <<< 1) % 256) ||| CARRY
      else ((s.register_a <<< 1) % 256) &&& 0b11111110)
    (hrorav : rorav = if flagContains s.status CARRY
      then (s.register_a >>> 1) ||| NEGATIVE
      else (s.register_a >>> 1) &&& 0b01111111) :
    (flagContains srol.status CARRY = decide (m >>> 7 = 1) ∧
     memRead srol addr = rolv ∧
     flagContains srol.status NEGATIVE = decide (128 ≤ rolv) ∧
     flagContains srol.status ZERO = flagContains s.status ZERO) ∧
    (flagContains sror.status CARRY = decide (m &&& CARRY = 1) ∧
     memRead sror addr = rorv ∧
     flagContains sror.status NEGATIVE = decide (128 ≤ rorv) ∧
     flagContains sror.status ZERO = flagContains s.status ZERO) ∧
    ((rotateLeftAccumulator s).register_a = rolav ∧
     flagContains (rotateLeftAccumulator s).status ZERO = decide (rolav = 0) ∧
     flagContains (rotateLeftAccumulator s).status NEGATIVE =
       decide (128 ≤ rolav)) ∧
    ((rotateRightAccumulator s).register_a = rorav ∧
     flagContains (rotateRightAccumulator s).status ZERO = decide (rorav = 0) ∧
     flagContains (rotateRightAccumulator s).status NEGATIVE =
       decide (128 ≤ rorav)) := by
  obtain ⟨a, x, y, st, sp, pc, mem⟩ := s
  have ha' : a < 256 := ha
  simp only [memRead] at hm hrolv hrorv hrolav hrorav ⊢
  subst hm
  have hmlt' : mem addr < 256 := hmlt
  simp only [rotateLeft, rotateRight, hres, Option.map_some', memRead] at hrol hror
  have hrolv' : rolv < 256 := by
    rw [hrolv]
    split_ifs
    · exact or_lt_256 _ _ (Nat.mod_lt _ (by norm_num)) (by decide)
    · exact Nat.lt_of_le_of_lt Nat.and_le_left (Nat.mod_lt _ (by norm_num))
  have hrorv' : rorv < 256 := by
    have hs : mem addr >>> 1 < 256 := by
      rw [Nat.shiftRight_eq_div_pow]
      omega
    rw [hrorv]
    split_ifs
    · exact or_lt_256 _ _ hs (by decide)
    · exact Nat.lt_of_le_of_lt Nat.and_le_left hs
  have hrolav' : rolav < 256 := by
    rw [hrolav]
    split_ifs
    · exact or_lt_256 _ _ (Nat.mod_lt _ (by norm_num)) (by decide)
    · exact Nat.lt_of_le_of_lt Nat.and_le_left (Nat.mod_lt _ (by norm_num))
  have hrorav' : rorav < 256 := by
    have hs : a >>> 1 < 256 := by
      rw [Nat.shiftRight_eq_div_pow]
      omega
    rw [hrorav]
    split_ifs
    · exact or_lt_256 _ _ hs (by decide)
    · exact Nat.lt_of_le_of_lt Nat.and_le_left hs
  have hl := Option.some_inj.mp hrol
  have hr := Option.some_inj.mp hror
  subst hl
  subst hr
  subst hrolv
  subst hrorv
  subst hrolav
  subst hrorav
  refine ⟨⟨?_, ?_, ?_, ?_⟩, ⟨?_, ?_, ?_, ?_⟩, ⟨?_, ?_, ?_⟩, ⟨?_, ?_, ?_⟩⟩
  · rw [memWrite_status, show CARRY = 2 ^ 0 from rfl,
      updNeg_other _ _ 0 (by decide) (by decide)]
    split_ifs with h7 <;>
      simp only [setCarryFlag, clearCarryFlag, show CARRY = 2 ^ 0 from rfl] <;>
      first
      | rw [flagContains_flagInsert_self]; simp [h7]
      | rw [flagContains_flagRemove_self _ _ (by decide)]; simp [h7]
  · exact memRead_memWrite_self _ _ _
  · rw [memWrite_status, updNeg_neg, shiftRight7_decide _ hrolv']
  · rw [memWrite_status, show ZERO = 2 ^ 1 from rfl,
      updNeg_other _ _ 1 (by decide) (by decide)]
    split_ifs with h7 <;>
      simp only [setCarryFlag, clearCarryFlag, show CARRY = 2 ^ 0 from rfl] <;>
      first
      | rw [flagContains_flagInsert_other _ 0 1 (by decide)]
      | rw [flagContains_flagRemove_other _ 0 1 (by decide) (by decide)]
  · rw [memWrite_status, show CARRY = 2 ^ 0 from rfl,
      updNeg_other _ _ 0 (by decide) (by decide)]
    split_ifs with h0 <;>
      simp only [setCarryFlag, clearCarryFlag, show CARRY = 2 ^ 0 from rfl] <;>
      first
      | rw [flagContains_flagInsert_self]
        exact (decide_eq_true h0).symm
      | rw [flagContains_flagRemove_self _ _ (by decide)]
        exact (decide_eq_false h0).symm
  · exact memRead_memWrite_self _ _ _
  · rw [memWrite_status, updNeg_neg, shiftRight7_decide _ hrorv']
  · rw [memWrite_status, show ZERO = 2 ^ 1 from rfl,
      updNeg_other _ _ 1 (by decide) (by decide)]
    split_ifs with h0 <;>
      simp only [setCarryFlag, clearCarryFlag, show CARRY = 2 ^ 0 from rfl] <;>
      first
      | rw [flagContains_flagInsert_other _ 0 1 (by decide)]
      | rw [flagContains_flagRemove_other _ 0 1 (by decide) (by decide)]
  · simp only [rotateLeftAccumulator, setRegisterA]
    rw [updZN_register_a]
  · simp only [rotateLeftAccumulator, setRegisterA]
    rw [updZN_zero]
  · simp only [rotateLeftAccumulator, setRegisterA]
    rw [updZN_neg, shiftRight7_decide _ hrolav']
  · simp only [rotateRightAccumulator, setRegisterA]
    rw [updZN_register_a]
  · simp only [rotateRightAccumulator, setRegisterA]
    rw [updZN_zero]
  · simp only [rotateRightAccumulator, setRegisterA]
    rw [updZN_neg, shiftRight7_decide _ hrorav']

/-- Witness for C8: with carry clear, A = `0x41`, operand byte
`mem[0x10] = 0x81` (Z flag initially set): memory ROL stores `0x02`,
sets C, leaves Z set; accumulator ROL gives `0x82` with N set, Z clear. -/
theorem rol_ror_flag_asymmetry_witness :
    let s : CPUState :=
      { register_a := 0x41, register_x := 0, register_y := 0,
        status := 0b00100110, stack_pointer := 0xFF,
        program_counter := 0x0600,
        memory := fun a => if a = 0x0600 then 0x10 else
          if a = 0x10 then 0x81 else 0 }
    ∃ srol sror : CPUState, rotateLeft s .zeroPage = some srol ∧
      rotateRight s .zeroPage = some sror ∧
      flagContains srol.status CARRY = true ∧
      memRead srol 0x10 = 0x02 ∧
      flagContains srol.status ZERO = true ∧
      flagContains (rotateLeftAccumulator s).status ZERO = false ∧
      flagContains (rotateLeftAccumulator s).status NEGATIVE = true := by
  intro s
  obtain ⟨srol, hrol⟩ : ∃ t, rotateLeft s .zeroPage = some t := ⟨_, rfl⟩
  obtain ⟨sror, hror⟩ : ∃ t, rotateRight s .zeroPage = some t := ⟨_, rfl⟩
  have h := rol_ror_flag_asymmetry s .zeroPage 0x10 0x81 0x02 0x40 0x82 0x20
    srol sror (by decide) (by decide) (by decide) (by decide) hrol hror
    (by decide) (by decide) (by decide) (by decide)
  refine ⟨srol, sror, hrol, hror, ?_, h.1.2.1, ?_, ?_, ?_⟩
  · rw [h.1.1]
    decide
  · rw [h.1.2.2.2]
    decide
  · rw [h.2.2.1.2.1]
    decide
  · rw [h.2.2.1.2.2]
    decide

/-- C10: every operation whose flag effect goes through
`update_zero_and_negative_flags` (the register setters, the loads,
transfers, increments/decrements, PLA, AND, ORA, EOR) leaves the C, I, D,
B, U and V bits of the status register exactly as they were: the shared
helper inserts or removes only the ZERO and NEGATIVE bits. -/
theorem zn_only_flag_frame (s : CPUState) (p v : Nat)
    (mode : AddressingMode) :
    znFramePreserved s (updateZeroAndNegativeFlags s p) ∧
    znFramePreserved s (setRegisterA s v) ∧
    znFramePreserved s (setRegisterX s v) ∧
    znFramePreserved s (setRegisterY s v) ∧
    znFramePreserved s (transferAccumulatorX s) ∧
    znFramePreserved s (transferAccumulatorY s) ∧
    znFramePreserved s (transferXAccumulator s) ∧
    znFramePreserved s (transferYAccumulator s) ∧
    znFramePreserved s (transferStackPointerToX s) ∧
    znFramePreserved s (incrementRegisterX s) ∧
    znFramePreserved s (incrementRegisterY s) ∧
    znFramePreserved s (decrementRegisterX s) ∧
    znFramePreserved s (decrementRegisterY s) ∧
    znFramePreserved s (pullAccumulator s) ∧
    (∀ t, loadARegister s mode = some t → znFramePreserved s t) ∧
    (∀ t, loadXRegister s mode = some t → znFramePreserved s t) ∧
    (∀ t, loadYRegister s mode = some t → znFramePreserved s t) ∧
    (∀ t, andA s mode = some t → znFramePreserved s t) ∧
    (∀ t, logicalInclusiveOr s mode = some t → znFramePreserved s t) ∧
    (∀ t, exclusiveOr s mode = some t → znFramePreserved s t) := by
  refine ⟨znFramePreserved_updZN _ _ _ rfl, znFramePreserved_updZN _ _ _ rfl,
    znFramePreserved_updZN _ _ _ rfl, znFramePreserved_updZN _ _ _ rfl,
    znFramePreserved_updZN _ _ _ rfl, znFramePreserved_updZN _ _ _ rfl,
    znFramePreserved_updZN _ _ _ rfl, znFramePreserved_updZN _ _ _ rfl,
    znFramePreserved_updZN _ _ _ rfl, znFramePreserved_updZN _ _ _ rfl,
    znFramePreserved_updZN _ _ _ rfl, znFramePreserved_updZN _ _ _ rfl,
    znFramePreserved_updZN _ _ _ rfl, znFramePreserved_updZN _ _ _ rfl,
    ?_, ?_, ?_, ?_, ?_, ?_⟩ <;>
  · intro t ht
    simp only [loadARegister, loadXRegister, loadYRegister, andA,
      logicalInclusiveOr, exclusiveOr] at ht
    cases hop : getOperandAddress s mode with
    | none =>
        rw [hop] at ht
        exact Option.noConfusion ht
    | some addr =>
        rw [hop, Option.map_some'] at ht
        rw [← Option.some_inj.mp ht]
        exact znFramePreserved_updZN _ _ _ rfl

/-- Witness for C10: with C, I, U and V set before the operation, both a
register-setter call and an executed LDA immediate of `0x80` (which sets
N and clears Z) leave C, I, D, B, U, V untouched. -/
theorem zn_only_flag_frame_witness :
    let s : CPUState :=
      { register_a := 0, register_x := 0, register_y := 0,
        status := 0b01100101, stack_pointer := 0xFF,
        program_counter := 0x0600,
        memory := fun a => if a = 0x0600 then 0x80 else 0 }
    znFramePreserved s (setRegisterA s 0x80) ∧
    (∃ t, loadARegister s AddressingMode.immediate = some t ∧
      znFramePreserved s t) := by
  intro s
  have h := zn_only_flag_frame s 0 0x80 AddressingMode.immediate
  refine ⟨h.2.1, ?_⟩
  obtain ⟨t, ht⟩ : ∃ t, loadARegister s AddressingMode.immediate = some t :=
    ⟨_, rfl⟩
  exact ⟨t, ht, h.2.2.2.2.2.2.2.2.2.2.2.2.2.2.1 t ht⟩

end Nes
